import Mathlib

/-!
Verification of the courier channel-log core (clog.go) and the bongolive
adapter scenarios, as a shallow embedding in Lean 4.

Strings are embedded as lists of characters (`Str`); Go machine integers
and `time.Duration`/`time.Time` are embedded as `Int` instants; the
nondeterministic inputs of the Go code (fresh UUIDs from `uuids.New()`,
the wall clock read by `dates.Now()` and `time.Since`) are passed as
explicit arguments.
-/

namespace Courier

/-- Go `string`, embedded at character granularity. -/
abbrev Str := List Char

/-- Convenience conversion from a Lean string literal. -/
def strOf (s : String) : Str := s.toList

/-! ## Redaction (gocommon `stringsx.NewRedactor`)

`newChannelLog` builds its redactor as
`stringsx.NewRedactor("**********", redactVals...)`, which in the
`gocommon` dependency wraps `strings.NewReplacer(v1, mask, v2, mask, ...)`:
a single left-to-right pass over the subject, replacing at each position
the first configured value (in argument order) that matches there, without
overlapping matches.  That replacer is embedded below with explicit fuel
(the subject's length bounds the number of scanning steps, since every
step consumes at least one character).  An empty redaction value is
embedded as never matching; Go inserts the mask around every character in
that degenerate case, and under both behaviours an empty value trivially
remains a substring of the output. -/

/-- The fixed mask token of `newChannelLog` (clog.go line 301). -/
def maskStr : Str := strOf "**********"

/-- The first configured value (in argument order) that is a nonempty
prefix of `s`: the match `strings.Replacer` performs at one position. -/
def findRedact (ps : List Str) (s : Str) : Option Str :=
  ps.find? fun p => !p.isEmpty && p.isPrefixOf s

/-- One left-to-right replacement pass, with fuel: at each position, if a
configured value matches, emit the mask and skip the match, else keep the
character.  `fuel ≥ s.length` makes the fuel irrelevant. -/
def redactFuel (ps : List Str) (mask : Str) : Nat → Str → Str
  | _, [] => []
  | 0, _ :: _ => []
  | fuel + 1, c :: rest =>
    match findRedact ps (c :: rest) with
    | some p => mask ++ redactFuel ps mask fuel ((c :: rest).drop p.length)
    | none => c :: redactFuel ps mask fuel rest

/-- `stringsx.NewRedactor(mask, values...)`: the redaction function stored
in a `ChannelLog`. -/
def NewRedactor (mask : Str) (values : List Str) : Str → Str :=
  fun s => redactFuel values mask s.length s

/-! ## Zero-operand `fmt.Sprintf`

`NewChannelError` computes `fmt.Sprintf(message, args...)`; the call sites
the claims touch pass no varargs, but `fmt.Sprintf` with no operands is
*not* the identity: Go's `doPrintf` copies literal text, turns `%%` into
`%`, reports a verb with no operand left as `%!v(MISSING)` (dropping its
flags, width and precision), a `*` width or precision as `%!(BADWIDTH)` /
`%!(BADPREC)`, a bad or out-of-range `[n]` argument index as
`%!v(BADINDEX)`, and a `%` at the end of the format as `%!(NOVERB)`.
That zero-operand path is embedded below, byte-for-byte from `doPrintf`
(flags `#0+- `, optional `[n]` indices before the width and the
precision, `*`, digit runs, then the verb); only the 1e6 overflow guard
of `parsenum` on absurdly long digit runs is not modelled. -/

/-- The format flags of `doPrintf`'s `simpleFormat` loop. -/
def isFlag (c : Char) : Bool :=
  c = '#' || c = '0' || c = '+' || c = '-' || c = ' '

/-- Consume the flag characters after a `%`. -/
def dropFlags : Str → Str
  | [] => []
  | c :: rest => if isFlag c then dropFlags rest else c :: rest

/-- Go `parsenum`: consume a run of decimal digits, returning how many
were consumed and the rest (the numeric value never matters with zero
operands). -/
def spanDigits : Str → Nat × Str
  | [] => (0, [])
  | c :: rest =>
    if c.isDigit then
      let (n, r) := spanDigits rest
      (n + 1, r)
    else (0, c :: rest)

/-- Split at the first `]`, when there is one. -/
def breakAtRBracket : Str → Option (Str × Str)
  | [] => none
  | c :: rest =>
    if c = ']' then some ([], rest)
    else match breakAtRBracket rest with
      | none => none
      | some (a, b) => some (c :: a, b)

/-- Go `argNumber`/`parseArgNumber` with zero operands: an explicit `[n]`
index can never be in range, so any bracket clears `goodArgNum`; a
well-formed `[digits]` still counts as an index (`afterIndex`).  Returns
(goodArgNum, afterIndex, rest). -/
def argNumberStep (good : Bool) (s : Str) : Bool × Bool × Str :=
  match s with
  | '[' :: rest =>
    if rest.length < 2 then (false, false, rest)
    else match breakAtRBracket rest with
      | none => (false, false, rest)
      | some (inside, after) => (false, !inside.isEmpty && inside.all Char.isDigit, after)
  | _ => (good, false, s)

/-- The width clause: a `*` consumes a missing operand and emits
`%!(BADWIDTH)`; a digit width after an index is a bad argument number.
Returns (goodArgNum, afterIndex, emitted, rest). -/
def widthStep (good afterIndex : Bool) (s : Str) : Bool × Bool × Str × Str :=
  match s with
  | '*' :: rest => (good, false, strOf "%!(BADWIDTH)", rest)
  | _ =>
    let (n, r) := spanDigits s
    (if afterIndex && decide (0 < n) then false else good, afterIndex, [], r)

/-- The precision clause (entered only when a character follows the dot):
a dot after an index is a bad argument number; a `*` precision consumes a
missing operand and emits `%!(BADPREC)`.  Returns (goodArgNum,
afterIndex, emitted, rest). -/
def precStep (good afterIndex : Bool) (s : Str) : Bool × Bool × Str × Str :=
  match s with
  | '.' :: rest =>
    if rest.isEmpty then (good, afterIndex, [], '.' :: rest)
    else
      let g1 := if afterIndex then false else good
      let (g2, a2, s2) := argNumberStep g1 rest
      match s2 with
      | '*' :: rest2 => (g2, false, strOf "%!(BADPREC)", rest2)
      | _ =>
        let (_, r) := spanDigits s2
        (g2, a2, [], r)
  | _ => (good, afterIndex, [], s)

/-- One `%` directive with zero operands: parse flags, index, width,
precision and the verb, and emit what `doPrintf` writes for it (`%` for
`%%`, else `%!v(BADINDEX)` or `%!v(MISSING)`, after any `%!(BADWIDTH)` /
`%!(BADPREC)`).  Returns (emitted, rest of the format). -/
def directive (s : Str) : Str × Str :=
  let s1 := dropFlags s
  let (g2, a2, s2) := argNumberStep true s1
  let (g3, a3, out3, s3) := widthStep g2 a2 s2
  let (g4, a4, out4, s4) := precStep g3 a3 s3
  let (g5, _, s5) := if a4 then (g4, a4, s4) else argNumberStep g4 s4
  match s5 with
  | [] => (out3 ++ out4 ++ strOf "%!(NOVERB)", [])
  | v :: rest =>
    if v = '%' then (out3 ++ out4 ++ ['%'], rest)
    else if g5 then (out3 ++ out4 ++ strOf "%!" ++ [v] ++ strOf "(MISSING)", rest)
    else (out3 ++ out4 ++ strOf "%!" ++ [v] ++ strOf "(BADINDEX)", rest)

/-- `fmt.Sprintf(format)` with no operands, with fuel: copy literal text
and process each `%` directive.  Every directive consumes at least its
`%`, so `fuel ≥ s.length` makes the fuel irrelevant. -/
def sprintfFuel : Nat → Str → Str
  | _, [] => []
  | 0, _ :: _ => []
  | fuel + 1, c :: rest =>
    if c = '%' then
      let d := directive rest
      d.1 ++ sprintfFuel fuel d.2
    else c :: sprintfFuel fuel rest

/-- `fmt.Sprintf` applied to a format string and no operands. -/
def sprintfNoArgs (format : Str) : Str :=
  sprintfFuel format.length format

/-! ## ChannelError (clog.go lines 192-255) -/

/-- `ChannelError` struct: `{code, extCode, message string}`. -/
structure ChannelError where
  code : Str
  extCode : Str
  message : Str
deriving DecidableEq

/-- `NewChannelError` (clog.go line 198): the message is
`fmt.Sprintf(message, args...)`.  The call sites the claims touch pass no
varargs, so the zero-operand `Sprintf` above applies — the identity on
`%`-free messages, but mangling `%` directives. -/
def NewChannelError (code extCode message : Str) : ChannelError :=
  ⟨code, extCode, sprintfNoArgs message⟩

/-- `ErrorExternal` (clog.go lines 234-239): an empty message defaults to
`fmt.Sprintf("Service specific error: %s.", code)` — a one-operand call
whose `%s` substitutes `code` verbatim, embedded as the concatenation.
Either message then goes through `NewChannelError`, whose zero-operand
`Sprintf` formats it a second time. -/
def ErrorExternal (code message : Str) : ChannelError :=
  NewChannelError (strOf "external") code
    (if message = [] then strOf "Service specific error: " ++ code ++ strOf "." else message)

/-- `ChannelError.Redact` (clog.go lines 241-243): a new error whose
message is the redactor applied to the receiver's message; the receiver's
fields are only read, never written. -/
def ChannelError.Redact (e : ChannelError) (r : Str → Str) : ChannelError :=
  ⟨e.code, e.extCode, r e.message⟩

/-! ## Channel, Msg, HTTP traces -/

/-- The `courier.Channel` interface, embedded with the identity fields the
mock channel of the tests carries (uuid, address, country); the claims
never inspect a channel. -/
structure Channel where
  uuid : Str
  address : Str
  country : Str
deriving DecidableEq

/-- The slice of `courier.Msg` the channel-log constructors read: its
owning channel. -/
structure Msg where
  channel : Channel
deriving DecidableEq

/-- Modelled from the spec: `httpx.Trace` of the external gocommon
dependency, one HTTP request/response exchange, carrying the status code
and the raw request and response captures. -/
structure Trace where
  statusCode : Int
  request : Str
  response : Str
deriving DecidableEq

/-- Modelled from the spec: `httpx.Recorder`, the pending recorder of an
incoming request, exposing its own trace. -/
structure Recorder where
  trace : Trace
deriving DecidableEq

/-- Modelled from the spec: `httpx.Log`, the bounded redacted capture of
one HTTP exchange (request body capped at 2048 bytes, response at 50000,
both passed through the log's redactor; status code kept). -/
structure HttpLog where
  statusCode : Int
  request : Str
  response : Str
deriving DecidableEq

/-- Modelled from the spec: `httpx.NewLog(trace, reqCap, respCap, redactor)`
of the external dependency: keep the status code, redact and truncate the
request and response captures. -/
def httpxNewLog (t : Trace) (reqCap respCap : Nat) (redactor : Str → Str) : HttpLog :=
  ⟨t.statusCode, (redactor t.request).take reqCap, (redactor t.response).take respCap⟩

/-- `ChannelLogType` (clog.go lines 179-190). -/
inductive ChannelLogType where
  | unknown
  | msg_send
  | msg_status
  | msg_receive
  | event_receive
  | multi_receive
  | attachment_fetch
  | token_refresh
  | page_subscribe
  | webhook_verify
deriving DecidableEq

/-! ## ChannelLog (clog.go lines 257-385)

The Go struct stores the redactor as a closure built once from
`redactVals` in `newChannelLog`; the embedding stores `redactVals` and
rebuilds the identical closure `NewRedactor maskStr redactVals` at each
use site. -/

/-- `ChannelLog` struct (clog.go lines 258-270). -/
structure ChannelLog where
  uuid : Nat
  type_ : ChannelLogType
  channel : Channel
  httpLogs : List HttpLog
  errors : List ChannelError
  createdOn : Int
  elapsed : Int
  attached : Bool
  recorder : Option Recorder
  redactVals : List Str
deriving DecidableEq

/-- `newChannelLog` (clog.go lines 293-303).  The fresh uuid and the clock
reading `dates.Now()` are passed explicitly.  The Go struct literal never
assigns the `attached` parameter to the `attached` field, so the field
starts at its zero value `false` whatever the parameter; the parameter is
kept (and ignored) to mirror the source. -/
def newChannelLog (t : ChannelLogType) (ch : Channel) (r : Option Recorder)
    (attachedArg : Bool) (redactVals : List Str) (uuid : Nat) (now : Int) : ChannelLog :=
  { uuid := uuid
    type_ := t
    channel := ch
    httpLogs := []
    errors := []
    createdOn := now
    elapsed := 0
    attached := false
    recorder := r
    redactVals := redactVals }

/-- `NewChannelLogForIncoming` (clog.go lines 274-276). -/
def NewChannelLogForIncoming (logType : ChannelLogType) (ch : Channel) (r : Recorder)
    (redactVals : List Str) (uuid : Nat) (now : Int) : ChannelLog :=
  newChannelLog logType ch (some r) false redactVals uuid now

/-- `NewChannelLogForSend` (clog.go lines 279-281). -/
def NewChannelLogForSend (msg : Msg) (redactVals : List Str) (uuid : Nat) (now : Int) : ChannelLog :=
  newChannelLog ChannelLogType.msg_send msg.channel none true redactVals uuid now

/-- `NewChannelLogForAttachmentFetch` (clog.go lines 284-286). -/
def NewChannelLogForAttachmentFetch (ch : Channel) (redactVals : List Str) (uuid : Nat)
    (now : Int) : ChannelLog :=
  newChannelLog ChannelLogType.attachment_fetch ch none true redactVals uuid now

/-- `NewChannelLog` (clog.go lines 289-291). -/
def NewChannelLog (t : ChannelLogType) (ch : Channel) (redactVals : List Str) (uuid : Nat)
    (now : Int) : ChannelLog :=
  newChannelLog t ch none false redactVals uuid now

/-- `ChannelLog.traceToLog` (clog.go lines 383-385). -/
def ChannelLog.traceToLog (l : ChannelLog) (t : Trace) : HttpLog :=
  httpxNewLog t 2048 50000 (NewRedactor maskStr l.redactVals)

/-- `ChannelLog.HTTP` (clog.go lines 306-308): append one redacted HTTP
log at the end of `httpLogs`. -/
def ChannelLog.HTTP (l : ChannelLog) (t : Trace) : ChannelLog :=
  { l with httpLogs := l.httpLogs ++ [l.traceToLog t] }

/-- `ChannelLog.Error` (clog.go lines 310-312): append the error, redacted
through the log's redactor, at the end of `errors`. -/
def ChannelLog.Error (l : ChannelLog) (e : ChannelError) : ChannelLog :=
  { l with errors := l.errors ++ [e.Redact (NewRedactor maskStr l.redactVals)] }

/-- `ChannelLog.RawError` (clog.go lines 315-317). -/
def ChannelLog.RawError (l : ChannelLog) (msg : Str) : ChannelLog :=
  l.Error (NewChannelError [] [] msg)

/-- `ChannelLog.End` (clog.go lines 319-326): if a pending recorder is
present, prepend its trace to `httpLogs`; set `elapsed` to the wall-clock
time since creation, with the clock reading passed as `now`. -/
def ChannelLog.End (l : ChannelLog) (now : Int) : ChannelLog :=
  let l' := match l.recorder with
    | some r => { l with httpLogs := l.traceToLog r.trace :: l.httpLogs }
    | none => l
  { l' with elapsed := now - l.createdOn }

/-- `ChannelLog.SetType` (clog.go lines 336-338). -/
def ChannelLog.SetType (l : ChannelLog) (t : ChannelLogType) : ChannelLog :=
  { l with type_ := t }

/-- `ChannelLog.SetAttached` (clog.go lines 348-350). -/
def ChannelLog.SetAttached (l : ChannelLog) (a : Bool) : ChannelLog :=
  { l with attached := a }

/-- `ChannelLog.IsError` (clog.go lines 369-381): an error was appended,
or some recorded HTTP exchange has a status code below 200 or at least
400. -/
def ChannelLog.IsError (l : ChannelLog) : Bool :=
  if l.errors.length > 0 then true
  else l.httpLogs.any fun h => decide (h.statusCode < 200) || decide (400 ≤ h.statusCode)

/-- The mutating operations of a `ChannelLog`'s lifetime, for the
append-only and attached-flag claims. -/
inductive LogOp where
  | http (t : Trace)
  | error (e : ChannelError)
  | rawError (msg : Str)
  | logEnd (now : Int)
  | setType (t : ChannelLogType)
  | setAttached (a : Bool)
deriving DecidableEq

/-- One operation applied to a log. -/
def applyOp (l : ChannelLog) : LogOp → ChannelLog
  | .http t => l.HTTP t
  | .error e => l.Error e
  | .rawError msg => l.RawError msg
  | .logEnd now => l.End now
  | .setType t => l.SetType t
  | .setAttached a => l.SetAttached a

/-! ## The bongolive adapter (spec-modelled)

The repository files hold the bongolive adapter's test cases but not its
handler; the receive and send behaviour below is modelled from the spec
(sections 4.4, 6 and 8). -/

/-- The canonical `MsgStatus` enumeration of the spec's data model. -/
inductive MsgStatusVal where
  | wired
  | sent
  | delivered
  | failed
  | errored
deriving DecidableEq

/-- Split a character list at every occurrence of `sep` (so
"a&b" becomes ["a", "b"]). -/
def splitOnChar (sep : Char) : Str → List Str
  | [] => [[]]
  | c :: rest =>
    match splitOnChar sep rest with
    | [] => [[]]
    | s :: ss => if c == sep then [] :: s :: ss else (c :: s) :: ss

/-- One `key=value` pair of a form body (a pair with no `=` has the empty
value). -/
def keyVal (s : Str) : Str × Str :=
  match splitOnChar '=' s with
  | [] => ([], [])
  | [k] => (k, [])
  | k :: v :: _ => (k, v)

/-- Modelled from the spec: decode a URL-encoded form body into its
key/value pairs (the scenario bodies need no percent-decoding). -/
def parseForm (s : Str) : List (Str × Str) :=
  (splitOnChar '&' s).map keyVal

/-- The first value bound to key `k` in a parsed form, if any. -/
def getField (form : List (Str × Str)) (k : Str) : Option Str :=
  (form.find? fun p => p.1 == k).map fun p => p.2

/-- Modelled from the spec: the bongolive status-callback mapping; the
spec documents "1" → delivered, and that an unrecognized status value is
rejected. -/
def bongoliveStatusMap (s : Str) : Option MsgStatusVal :=
  if s == strOf "1" then some MsgStatusVal.delivered else none

/-- What the receive endpoint produces: the HTTP response status, the
Msgs created (URN and text), and the MsgStatus updates (external id and
mapped status). -/
structure ReceiveOutcome where
  respStatus : Nat
  msgs : List (Str × Str)
  statuses : List (Str × MsgStatusVal)
deriving DecidableEq

/-- Modelled from the spec: the message branch of the bongolive receive
handler.  A missing `sourceaddr` is a 400 rejection; otherwise one Msg is
produced whose URN is the source address in international format under
the `tel` scheme. -/
def receiveMsgPart (form : List (Str × Str)) : ReceiveOutcome :=
  match getField form (strOf "sourceaddr") with
  | none => ⟨400, [], []⟩
  | some addr => ⟨200, [(strOf "tel:+" ++ addr, (getField form (strOf "message")).getD [])], []⟩

/-- Modelled from the spec: the status-callback branch of the bongolive
receive handler.  A missing `dlrid` or `status`, or a status value outside
the documented mapping, is a 400 rejection; otherwise one MsgStatus is
produced for the external id `dlrid`. -/
def receiveStatusPart (form : List (Str × Str)) : ReceiveOutcome :=
  match getField form (strOf "dlrid"), getField form (strOf "status") with
  | some extId, some st =>
    match bongoliveStatusMap st with
    | some v => ⟨200, [], [(extId, v)]⟩
    | none => ⟨400, [], []⟩
  | _, _ => ⟨400, [], []⟩

/-- Modelled from the spec: the bongolive receive endpoint, multiplexed on
the `msgtype` discriminator (absent or "1": inbound message; "5": status
callback; anything else: unsupported interaction kind, a 400 rejection). -/
def receiveRequest (form : List (Str × Str)) : ReceiveOutcome :=
  match getField form (strOf "msgtype") with
  | none => receiveMsgPart form
  | some mt =>
    if mt == strOf "1" then receiveMsgPart form
    else if mt == strOf "5" then receiveStatusPart form
    else ⟨400, [], []⟩

/-- The URL-encoded parameters of a bongolive outbound send request. -/
structure SendParams where
  USERNAME : Str
  PASSWORD : Str
  SOURCEADDR : Str
  DESTADDR : Str
  DLR : Str
  MESSAGE : Str
  CHARCODE : Str
deriving DecidableEq

/-- Modelled from the spec: build the vendor's native send request —
credentials, source/destination address, message body with the attachment
URLs appended newline-joined, delivery-receipt flag "1", encoding hint
"2". -/
def buildSendParams (username password sourceAddr destAddr text : Str)
    (attachmentURLs : List Str) : SendParams :=
  { USERNAME := username
    PASSWORD := password
    SOURCEADDR := sourceAddr
    DESTADDR := destAddr
    DLR := strOf "1"
    MESSAGE := attachmentURLs.foldl (fun acc u => acc ++ '\n' :: u) text
    CHARCODE := strOf "2" }

/-- The error classes a send can produce, per the spec's taxonomy. -/
inductive SendErr where
  | responseUnexpected
  | responseStatus
  | connectionFailed
deriving DecidableEq

/-- A send either succeeds with the vendor's external message id or fails
with an error class. -/
inductive SendResult where
  | ok (extId : Str)
  | fail (e : SendErr)
deriving DecidableEq

/-- One item of the `results` array of the vendor's JSON response, already
parsed: its `status` field and its `msgid` field (empty when absent). -/
structure ResultItem where
  status : Str
  msgid : Str
deriving DecidableEq

/-- Modelled from the spec: interpret the vendor's response to a send.  A
5xx status (or transport failure) is a connection-failure outcome; any
other non-2xx/3xx status is a response-status error; on a success status,
a leading results item with vendor status "0" yields the external message
id, and a non-zero vendor status (or an empty results array) is a
`response_unexpected` rejection. -/
def interpretSendResponse (httpStatus : Nat) (results : List ResultItem) : SendResult :=
  if 500 ≤ httpStatus then SendResult.fail SendErr.connectionFailed
  else if httpStatus < 200 ∨ 400 ≤ httpStatus then SendResult.fail SendErr.responseStatus
  else match results with
    | [] => SendResult.fail SendErr.responseUnexpected
    | r :: _ =>
      if r.status == strOf "0" then SendResult.ok r.msgid
      else SendResult.fail SendErr.responseUnexpected

/-! ## Redaction lemmas

The replacer's single pass emits an interleaving of kept input characters
and mask copies.  A configured value that is nonempty and shares no
character with the mask cannot straddle a mask copy, so any occurrence of
it in the output would sit inside a run of kept characters — characters at
which the scanner found no match, although the value itself would have
matched there.  Hence no such value survives redaction. -/

/-- A value returned by `findRedact` is a nonempty prefix of the subject. -/
theorem findRedact_some {ps : List Str} {s p : Str} (h : findRedact ps s = some p) :
    p ≠ [] ∧ p <+: s := by
  have hp := List.find?_some h
  simp only [Bool.and_eq_true, Bool.not_eq_true'] at hp
  refine ⟨?_, List.isPrefixOf_iff_prefix.mp hp.2⟩
  intro he
  subst he
  simp [List.isEmpty] at hp

/-- Redacting the empty subject gives the empty output, for any fuel. -/
theorem redactFuel_nil (ps : List Str) (mask : Str) (fuel : Nat) :
    redactFuel ps mask fuel [] = [] := by
  cases fuel <;> rfl

/-- With no fuel the output is empty. -/
theorem redactFuel_zero (ps : List Str) (mask : Str) (s : Str) :
    redactFuel ps mask 0 s = [] := by
  cases s <;> rfl

/-- Unfolding equation of `redactFuel` when a value matches at the head. -/
theorem redactFuel_cons_some {ps : List Str} {mask : Str} {fuel : Nat} {c : Char} {rest p : Str}
    (h : findRedact ps (c :: rest) = some p) :
    redactFuel ps mask (fuel + 1) (c :: rest)
      = mask ++ redactFuel ps mask fuel ((c :: rest).drop p.length) := by
  simp [redactFuel, h]

/-- Unfolding equation of `redactFuel` when no value matches at the head. -/
theorem redactFuel_cons_none {ps : List Str} {mask : Str} {fuel : Nat} {c : Char} {rest : Str}
    (h : findRedact ps (c :: rest) = none) :
    redactFuel ps mask (fuel + 1) (c :: rest) = c :: redactFuel ps mask fuel rest := by
  simp [redactFuel, h]

/-- A mask-free prefix of the redactor's output is a prefix of the input:
its characters are kept input characters, in input order. -/
theorem prefix_of_redactFuel {ps : List Str} {mask : Str} (hmask : mask ≠ []) :
    ∀ (fuel : Nat) (s w : Str), (∀ c ∈ w, c ∉ mask) →
      w <+: redactFuel ps mask fuel s → w <+: s := by
  intro fuel
  induction fuel with
  | zero =>
    intro s w _ hw
    rw [redactFuel_zero] at hw
    have hw0 := List.prefix_nil.mp hw
    subst hw0
    exact List.nil_prefix
  | succ fuel ih =>
    intro s w hdisj hw
    cases s with
    | nil =>
      rw [redactFuel_nil] at hw
      have hw0 := List.prefix_nil.mp hw
      subst hw0
      exact List.nil_prefix
    | cons c rest =>
      cases hfr : findRedact ps (c :: rest) with
      | some p =>
        rw [redactFuel_cons_some hfr] at hw
        cases w with
        | nil => exact List.nil_prefix
        | cons a w' =>
          cases hm : mask with
          | nil => exact absurd hm hmask
          | cons m mask' =>
            rw [hm, List.cons_append] at hw
            have ha := (List.cons_prefix_cons.mp hw).1
            refine absurd ?_ (hdisj a (List.mem_cons_self a w'))
            rw [ha, hm]
            exact List.mem_cons_self m mask'
      | none =>
        rw [redactFuel_cons_none hfr] at hw
        cases w with
        | nil => exact List.nil_prefix
        | cons a w' =>
          obtain ⟨rfl, hw'⟩ := List.cons_prefix_cons.mp hw
          exact List.cons_prefix_cons.mpr
            ⟨rfl, ih rest w' (fun x hx => hdisj x (List.mem_cons_of_mem _ hx)) hw'⟩

/-- A nonempty mask-free word cannot start inside the mask: an infix of
`mask ++ rest` is an infix of `rest`. -/
theorem infix_after_mask {v : Str} (hne : v ≠ []) :
    ∀ (mask rest : Str), (∀ c ∈ v, c ∉ mask) → v <:+: mask ++ rest → v <:+: rest
  | [], rest, _, h => by simpa using h
  | m :: mask, rest, hdisj, h => by
    rw [List.cons_append] at h
    rcases List.infix_cons_iff.mp h with hpre | hinf
    · cases v with
      | nil => exact absurd rfl hne
      | cons a v' =>
        have ha := (List.cons_prefix_cons.mp hpre).1
        refine absurd ?_ (hdisj a (List.mem_cons_self a v'))
        rw [ha]
        exact List.mem_cons_self m mask
    · exact infix_after_mask hne mask rest
        (fun c hc hm => hdisj c hc (List.mem_cons_of_mem _ hm)) hinf

/-- Core redaction property: a configured value that is nonempty and
shares no character with a nonempty mask does not occur in the replacer's
output. -/
theorem not_infix_redactFuel {ps : List Str} {mask v : Str}
    (hmem : v ∈ ps) (hne : v ≠ []) (hmask : mask ≠ [])
    (hdisj : ∀ c ∈ v, c ∉ mask) :
    ∀ (fuel : Nat) (s : Str), s.length ≤ fuel → ¬ v <:+: redactFuel ps mask fuel s := by
  intro fuel
  induction fuel with
  | zero =>
    intro s _ hinf
    rw [redactFuel_zero] at hinf
    exact hne (List.infix_nil.mp hinf)
  | succ fuel ih =>
    intro s hlen hinf
    cases s with
    | nil =>
      rw [redactFuel_nil] at hinf
      exact hne (List.infix_nil.mp hinf)
    | cons c rest =>
      cases hfr : findRedact ps (c :: rest) with
      | some p =>
        rw [redactFuel_cons_some hfr] at hinf
        obtain ⟨hpne, hppre⟩ := findRedact_some hfr
        have hplen : 1 ≤ p.length := by
          cases p with
          | nil => exact absurd rfl hpne
          | cons _ _ => simp
        have hdrop : ((c :: rest).drop p.length).length ≤ fuel := by
          have hle := hppre.length_le
          simp only [List.length_drop, List.length_cons] at hle hlen ⊢
          omega
        exact ih _ hdrop (infix_after_mask hne mask _ hdisj hinf)
      | none =>
        rw [redactFuel_cons_none hfr] at hinf
        rcases List.infix_cons_iff.mp hinf with hpre | htail
        · have hvs : v <+: c :: rest := by
            have h2 : v <+: redactFuel ps mask (fuel + 1) (c :: rest) := by
              rw [redactFuel_cons_none hfr]
              exact hpre
            exact prefix_of_redactFuel hmask (fuel + 1) (c :: rest) v hdisj h2
          have hpred := List.find?_eq_none.mp hfr v hmem
          apply hpred
          simp only [Bool.and_eq_true, Bool.not_eq_true']
          constructor
          · cases v with
            | nil => exact absurd rfl hne
            | cons _ _ => rfl
          · exact List.isPrefixOf_iff_prefix.mpr hvs
        · refine ih rest ?_ htail
          simp only [List.length_cons] at hlen
          omega

/-- The channel log's redactor (mask "**********") removes every
configured value that is nonempty and contains no mask character. -/
theorem not_infix_NewRedactor {values : List Str} {v : Str}
    (hmem : v ∈ values) (hne : v ≠ []) (hstar : '*' ∉ v) (m : Str) :
    ¬ v <:+: NewRedactor maskStr values m := by
  have hmr : maskStr = List.replicate 10 '*' := by decide
  have hdisj : ∀ c ∈ v, c ∉ maskStr := by
    intro c hc hcm
    rw [hmr] at hcm
    have hcs : c = '*' := List.eq_of_mem_replicate hcm
    rw [hcs] at hc
    exact hstar hc
  have hmask : maskStr ≠ [] := by decide
  exact not_infix_redactFuel hmem hne hmask hdisj m.length m (Nat.le_refl _)

/-! ## Zero-operand Sprintf lemmas -/

/-- Formatting the empty string gives the empty string, for any fuel. -/
theorem sprintfFuel_nil (fuel : Nat) : sprintfFuel fuel [] = [] := by
  cases fuel <;> rfl

/-- Unfolding equation of `sprintfFuel` at a literal character. -/
theorem sprintfFuel_cons_ne {fuel : Nat} {c : Char} {rest : Str} (h : ¬ c = '%') :
    sprintfFuel (fuel + 1) (c :: rest) = c :: sprintfFuel fuel rest := by
  simp [sprintfFuel, h]

/-- A format string with no `%` is copied literally. -/
theorem sprintfFuel_no_percent :
    ∀ (fuel : Nat) (s : Str), s.length ≤ fuel → '%' ∉ s → sprintfFuel fuel s = s := by
  intro fuel
  induction fuel with
  | zero =>
    intro s hlen _
    cases s with
    | nil => rfl
    | cons c rest => simp at hlen
  | succ fuel ih =>
    intro s hlen hp
    cases s with
    | nil => exact sprintfFuel_nil _
    | cons c rest =>
      have hc : ¬ c = '%' := by
        intro h
        subst h
        exact hp (List.mem_cons_self _ _)
      rw [sprintfFuel_cons_ne hc]
      rw [ih rest (by simp only [List.length_cons] at hlen; omega)
        (fun h => hp (List.mem_cons_of_mem _ h))]

/-- Zero-operand `fmt.Sprintf` is the identity exactly on the `%`-free
format strings of interest. -/
theorem sprintfNoArgs_of_no_percent {s : Str} (h : '%' ∉ s) : sprintfNoArgs s = s :=
  sprintfFuel_no_percent s.length s (Nat.le_refl _) h

/-! ## The claims -/

/-- C1 (counterexample): the claim fails as universally stated.  With the
single redaction value "a*", appending an error with message "aa*" stores
the message "a**********" (the replacer matches "a*" at position 1 and
emits the mask after the kept first character) — and the configured value
"a*" still occurs in the stored message. -/
theorem c1_redaction_counterexample :
    (((newChannelLog ChannelLogType.msg_send ⟨[], [], []⟩ none false [strOf "a*"] 0 0).Error
          (NewChannelError [] [] (strOf "aa*"))).errors.map ChannelError.message
        = [strOf "a**********"]) ∧
      strOf "a*" ∈ [strOf "a*"] ∧ strOf "a*" <:+: strOf "a**********" := by
  decide

/-- C1 (amended): an error appended via `Error()` is stored with its
message passed through the log's redactor, and for every configured
redaction value that is nonempty and contains no mask character, no
occurrence of that value remains in the stored message. -/
theorem channelLog_error_redacted (l : ChannelLog) (e : ChannelError) (v : Str)
    (hmem : v ∈ l.redactVals) (hne : v ≠ []) (hstar : '*' ∉ v) :
    (l.Error e).errors = l.errors ++ [e.Redact (NewRedactor maskStr l.redactVals)] ∧
      ¬ v <:+: (e.Redact (NewRedactor maskStr l.redactVals)).message :=
  ⟨rfl, not_infix_NewRedactor hmem hne hstar e.message⟩

/-- C1 (witness): the amended theorem applied to a log configured with the
credential "pass1" and an error whose message contains it. -/
theorem channelLog_error_redacted_witness :
    ((newChannelLog ChannelLogType.msg_send ⟨[], [], []⟩ none false [strOf "pass1"] 0 0).Error
          (NewChannelError [] [] (strOf "user pass1 x"))).errors
        = [] ++ [(NewChannelError [] [] (strOf "user pass1 x")).Redact
            (NewRedactor maskStr [strOf "pass1"])] ∧
      ¬ strOf "pass1" <:+: ((NewChannelError [] [] (strOf "user pass1 x")).Redact
          (NewRedactor maskStr [strOf "pass1"])).message :=
  channelLog_error_redacted _ _ _ (by decide) (by decide) (by decide)

/-- C2: `IsError()` is true iff some error was appended or some recorded
HTTP log has a status code below 200 or at least 400. -/
theorem isError_iff (l : ChannelLog) :
    l.IsError = true ↔
      l.errors ≠ [] ∨ ∃ h ∈ l.httpLogs, h.statusCode < 200 ∨ 400 ≤ h.statusCode := by
  cases hE : l.errors with
  | nil => simp [ChannelLog.IsError, hE, List.any_eq_true]
  | cons e es => simp [ChannelLog.IsError, hE]

/-- C3: `End()` sets `elapsed` to the (non-negative, the clock being
monotonic: `createdOn ≤ now`) time since creation, and when the log was
created with a pending recorder, the recorder's own trace becomes the
first element of `httpLogs`, the previously appended logs following in
their original order. -/
theorem end_elapsed_and_recorder (l : ChannelLog) (now : Int) (h : l.createdOn ≤ now) :
    0 ≤ (l.End now).elapsed ∧
      ∀ r, l.recorder = some r →
        (l.End now).httpLogs = l.traceToLog r.trace :: l.httpLogs := by
  constructor
  · cases hr : l.recorder <;> simp [ChannelLog.End, hr] <;> omega
  · intro r hr
    simp [ChannelLog.End, hr]

/-- C3 (witness): `End` at time 5 on a log created at time 0 from a
pending recorder. -/
theorem end_elapsed_and_recorder_witness :
    0 ≤ ((NewChannelLogForIncoming ChannelLogType.unknown ⟨[], [], []⟩ ⟨⟨200, [], []⟩⟩
            [] 0 0).End 5).elapsed ∧
      ((NewChannelLogForIncoming ChannelLogType.unknown ⟨[], [], []⟩ ⟨⟨200, [], []⟩⟩
            [] 0 0).End 5).httpLogs
        = (NewChannelLogForIncoming ChannelLogType.unknown ⟨[], [], []⟩ ⟨⟨200, [], []⟩⟩
            [] 0 0).traceToLog ⟨200, [], []⟩
          :: (NewChannelLogForIncoming ChannelLogType.unknown ⟨[], [], []⟩ ⟨⟨200, [], []⟩⟩
            [] 0 0).httpLogs :=
  ⟨(end_elapsed_and_recorder _ 5 (by decide)).1,
    (end_elapsed_and_recorder _ 5 (by decide)).2 _ rfl⟩

/-- C4: `errors` and `httpLogs` are append-only across the lifetime
operations: `HTTP` appends exactly one redacted entry at the end of
`httpLogs` and leaves `errors` unchanged, `Error` appends exactly one
redacted entry at the end of `errors` and leaves `httpLogs` unchanged,
and no operation removes or reorders the existing entries (the old
sequence always embeds order-preservingly in the new one). -/
theorem channelLog_append_only (l : ChannelLog) (t : Trace) (e : ChannelError) (op : LogOp) :
    (l.HTTP t).httpLogs = l.httpLogs ++ [l.traceToLog t] ∧
      (l.HTTP t).errors = l.errors ∧
      (l.Error e).errors = l.errors ++ [e.Redact (NewRedactor maskStr l.redactVals)] ∧
      (l.Error e).httpLogs = l.httpLogs ∧
      List.Sublist l.errors (applyOp l op).errors ∧
      List.Sublist l.httpLogs (applyOp l op).httpLogs := by
  refine ⟨rfl, rfl, rfl, rfl, ?_, ?_⟩
  · cases op with
    | http t2 => exact List.Sublist.refl _
    | error e2 => exact List.sublist_append_left _ _
    | rawError m2 => exact List.sublist_append_left _ _
    | logEnd n2 => cases hr : l.recorder <;> simp [applyOp, ChannelLog.End, hr]
    | setType t2 => exact List.Sublist.refl _
    | setAttached a2 => exact List.Sublist.refl _
  · cases op with
    | http t2 => exact List.sublist_append_left _ _
    | error e2 => exact List.Sublist.refl _
    | rawError m2 => exact List.Sublist.refl _
    | logEnd n2 => cases hr : l.recorder <;> simp [applyOp, ChannelLog.End, hr]
    | setType t2 => exact List.Sublist.refl _
    | setAttached a2 => exact List.Sublist.refl _

/-- C5: `Redact` returns a new error with the same `code` and `extCode`
and with the redactor applied to the message; the receiver is only read
(the embedding is a pure function of the receiver's fields, mirroring the
Go code, which constructs a fresh struct and never writes through `e`). -/
theorem channelError_redact_fields (e : ChannelError) (r : Str → Str) :
    (e.Redact r).code = e.code ∧ (e.Redact r).extCode = e.extCode ∧
      (e.Redact r).message = r e.message :=
  ⟨rfl, rfl, rfl⟩

/-- C6 (counterexample): the external error constructor does not pass the
message through verbatim — `ErrorExternal("E42", "")` stores the default
message "Service specific error: E42.", not "", and the constructor's
zero-operand `fmt.Sprintf` mangles a nonempty message holding a format
verb: `ErrorExternal("c", "100%s")` stores "100%!s(MISSING)". -/
theorem c6_external_counterexample :
    ((ErrorExternal (strOf "E42") []).message = strOf "Service specific error: E42." ∧
      (ErrorExternal (strOf "E42") []).message ≠ []) ∧
      ((ErrorExternal (strOf "c") (strOf "100%s")).message = strOf "100%!s(MISSING)" ∧
        (ErrorExternal (strOf "c") (strOf "100%s")).message ≠ strOf "100%s") := by
  decide

/-- C6 (amended): `ErrorExternal(c, m)` has code "external" and extCode
`c`; a nonempty message with no `%` character is passed through verbatim
(the constructor runs the message through zero-operand `fmt.Sprintf`,
which mangles `%` directives), and an empty message defaults to
"Service specific error: c." (stored verbatim when `c` is `%`-free). -/
theorem errorExternal_spec (c m : Str) :
    (ErrorExternal c m).code = strOf "external" ∧
      (ErrorExternal c m).extCode = c ∧
      (m ≠ [] → '%' ∉ m → (ErrorExternal c m).message = m) ∧
      (m = [] → '%' ∉ c → (ErrorExternal c m).message
        = strOf "Service specific error: " ++ c ++ strOf ".") := by
  refine ⟨rfl, rfl, ?_, ?_⟩
  · intro hne hp
    simp only [ErrorExternal, NewChannelError, if_neg hne]
    exact sprintfNoArgs_of_no_percent hp
  · intro hme hpc
    simp only [ErrorExternal, NewChannelError, if_pos hme]
    refine sprintfNoArgs_of_no_percent ?_
    intro hmem
    rcases List.mem_append.mp hmem with h1 | h2
    · rcases List.mem_append.mp h1 with h3 | h4
      · exact absurd h3 (by decide)
      · exact hpc h4
    · exact absurd h2 (by decide)

/-- C6 (witness): the amended theorem at code "X" and the `%`-free
nonempty message "hi". -/
theorem errorExternal_spec_witness :
    (ErrorExternal (strOf "X") (strOf "hi")).code = strOf "external" ∧
      (ErrorExternal (strOf "X") (strOf "hi")).extCode = strOf "X" ∧
      (ErrorExternal (strOf "X") (strOf "hi")).message = strOf "hi" :=
  ⟨(errorExternal_spec _ _).1, (errorExternal_spec _ _).2.1,
    (errorExternal_spec _ _).2.2.1 (by decide) (by decide)⟩

/-- C7 (counterexample): the attached flag is not immune to reversion —
`SetAttached(false)` is an operation that reverts it after it has been set
true. -/
theorem c7_attached_counterexample :
    ((applyOp (newChannelLog ChannelLogType.msg_send ⟨[], [], []⟩ none false [] 0 0)
          (LogOp.setAttached true)).attached = true) ∧
      ((applyOp (applyOp (newChannelLog ChannelLogType.msg_send ⟨[], [], []⟩ none false [] 0 0)
          (LogOp.setAttached true)) (LogOp.setAttached false)).attached = false) :=
  ⟨rfl, rfl⟩

/-- C7 (amended): `attached` is false at construction for every
constructor (including `NewChannelLogForSend` — the Go struct literal
ignores the `attached` parameter), and once true it is preserved by every
operation except an explicit `SetAttached(false)` call. -/
theorem attached_lifecycle :
    (∀ (t : ChannelLogType) (ch : Channel) (r : Option Recorder) (a : Bool)
        (vals : List Str) (uuid : Nat) (now : Int),
        (newChannelLog t ch r a vals uuid now).attached = false) ∧
      (∀ (t : ChannelLogType) (ch : Channel) (r : Recorder) (vals : List Str)
          (uuid : Nat) (now : Int),
        (NewChannelLogForIncoming t ch r vals uuid now).attached = false) ∧
      (∀ (m : Msg) (vals : List Str) (uuid : Nat) (now : Int),
        (NewChannelLogForSend m vals uuid now).attached = false) ∧
      (∀ (ch : Channel) (vals : List Str) (uuid : Nat) (now : Int),
        (NewChannelLogForAttachmentFetch ch vals uuid now).attached = false) ∧
      (∀ (t : ChannelLogType) (ch : Channel) (vals : List Str) (uuid : Nat) (now : Int),
        (NewChannelLog t ch vals uuid now).attached = false) ∧
      (∀ (l : ChannelLog) (op : LogOp), l.attached = true →
        op ≠ LogOp.setAttached false → (applyOp l op).attached = true) := by
  refine ⟨fun _ _ _ _ _ _ _ => rfl, fun _ _ _ _ _ _ => rfl, fun _ _ _ _ => rfl,
    fun _ _ _ _ => rfl, fun _ _ _ _ _ => rfl, ?_⟩
  intro l op ha hne
  cases op with
  | http t => exact ha
  | error e => exact ha
  | rawError m => exact ha
  | logEnd n => cases hr : l.recorder <;> simpa [applyOp, ChannelLog.End, hr] using ha
  | setType t => exact ha
  | setAttached a =>
    cases a with
    | false => exact absurd rfl hne
    | true => rfl

/-- C7 (witness): the preservation part of the amended theorem applied to
a log whose flag was set true, under a `SetType` operation. -/
theorem attached_lifecycle_witness :
    (applyOp (applyOp (newChannelLog ChannelLogType.unknown ⟨[], [], []⟩ none false [] 0 0)
        (LogOp.setAttached true)) (LogOp.setType ChannelLogType.msg_receive)).attached = true :=
  attached_lifecycle.2.2.2.2.2 _ _ rfl (by decide)

/-- C8: the receive scenario — the valid Kenyan-channel form yields a 200
response with exactly one Msg with URN tel:+254791541111 and text "Msg";
the same request without `sourceaddr` yields a 400 response and no Msg. -/
theorem receive_scenarios :
    receiveRequest (parseForm (strOf "msgtype=1&id=12345678&message=Msg&sourceaddr=254791541111"))
        = ⟨200, [(strOf "tel:+254791541111", strOf "Msg")], []⟩ ∧
      receiveRequest (parseForm (strOf "msgtype=1&id=12345679&message=Msg")) = ⟨400, [], []⟩ := by
  decide

/-- C9: the status-callback scenario — status value "1" yields a 200
response with one MsgStatus (external id "12345", delivered); the
undefined value "12" yields a 400 rejection and no MsgStatus. -/
theorem status_callback_scenarios :
    receiveRequest (parseForm (strOf "msgtype=5&dlrid=12345&status=1"))
        = ⟨200, [], [(strOf "12345", MsgStatusVal.delivered)]⟩ ∧
      receiveRequest (parseForm (strOf "msgtype=5&dlrid=12345&status=12")) = ⟨400, [], []⟩ := by
  decide

/-- C10: the send scenario — the outbound request's MESSAGE field is the
text followed by the attachment URL on a new line (with the credentials,
addresses, DLR flag and charcode of the test channel); HTTP 200 with
results item status "0" and msgid "123" returns external id "123"; a
non-zero results status is a response-unexpected error; HTTP 403 is a
response-status error; HTTP 501 is a connection-failure outcome. -/
theorem send_scenarios :
    buildSendParams (strOf "user1") (strOf "pass1") (strOf "2020") (strOf "250788383383")
        (strOf "Simple Message ☺") [strOf "https://foo.bar/image.jpg"]
      = ⟨strOf "user1", strOf "pass1", strOf "2020", strOf "250788383383", strOf "1",
          strOf "Simple Message ☺\nhttps://foo.bar/image.jpg", strOf "2"⟩ ∧
      interpretSendResponse 200 [⟨strOf "0", strOf "123"⟩] = SendResult.ok (strOf "123") ∧
      interpretSendResponse 200 [⟨strOf "3", []⟩] = SendResult.fail SendErr.responseUnexpected ∧
      interpretSendResponse 403 [⟨strOf "1", strOf "123"⟩]
        = SendResult.fail SendErr.responseStatus ∧
      interpretSendResponse 501 [] = SendResult.fail SendErr.connectionFailed := by
  decide

end Courier
